import Mathlib

/-!
Shallow embedding of the reflow-scheduling layer of the servo sample
(`src/components/script/page.rs`) and of the layout font-group lookup
(`src/components/gfx/font_context.rs`).

The script-side `Page` is modelled as an explicit state record; message
sends on the layout channel become an output trace, and the completion
signal receiver (`layout_join_port`) is modelled by a `PortState` that
records what the layout worker will do with the channel (value already
sent, value sent later, disconnected, disconnect later).  Task failure
(`fail!` / `unwrap` on `None`) is modelled with `Except String`.
-/

namespace Servo

/-- `ReflowGoal` from `layout_interface` (used in `page.rs`). -/
inductive ReflowGoal where
  | ReflowForDisplay
  | ReflowForScriptQuery
deriving Repr, DecidableEq

/-- `ReflowQueryType` from `layout_interface`: geometry queries carry a
trusted node address (modelled as `Nat`). -/
inductive ReflowQueryType where
  | ContentBoxQuery (addr : Nat)
  | ContentBoxesQuery (addr : Nat)
  | NoQuery
deriving Repr, DecidableEq

/-- The state of the completion-signal receiver held in
`layout_join_port`, as seen from the script task: what the layout worker
has done / will do with the sending half. -/
inductive PortState where
  | ready             -- a completion value has already been sent
  | willSend          -- empty now; the worker will send a value later
  | disconnected      -- already dropped without sending a value
  | willDisconnect    -- empty now; the worker will drop without sending
deriving Repr, DecidableEq

/-- A frame: document + window.  For this layer only the presence of a
document root element matters (`GetDocumentElement`), modelled as an
optional node address. -/
structure Frame where
  documentElement : Option Nat
deriving Repr, DecidableEq

/-- The `Page` fields that the reflow protocol reads or writes. -/
structure PageState where
  frame : Option Frame
  layout_join_port : Option PortState
  damaged : Bool
  last_reflow_id : Nat
  avoided_reflows : Int
deriving Repr, DecidableEq

/-- A `ReflowMsg` payload as far as it is observable here: the goal, the
reflow id and the query type it carries. -/
structure ReflowMsgData where
  goal : ReflowGoal
  id : Nat
  query_type : ReflowQueryType
deriving Repr, DecidableEq

/-- Result of one protocol step: the new page state, the reflow messages
dispatched on the layout channel, and whether the step blocked waiting
on layout. -/
structure StepResult where
  page : PageState
  sent : List ReflowMsgData
  blocked : Bool
deriving Repr, DecidableEq

/-- `Page::join_layout` (page.rs:297-319).  If a join port is present it
is taken out of the field first; `try_recv` is then attempted: `Ok` means
the value was already there, `Err(Empty)` blocks in `recv()` (which itself
fails if the worker then disconnects without sending), and
`Err(Disconnected)` calls `fail!`. -/
def join_layout (p : PageState) : Except String StepResult :=
  match p.layout_join_port with
  | none => .ok ⟨p, [], false⟩
  | some port =>
    let p' := { p with layout_join_port := none }
    match port with
    | .ready => .ok ⟨p', [], false⟩
    | .willSend => .ok ⟨p', [], true⟩
    | .disconnected =>
        .error "Layout task failed while script was waiting for a result."
    | .willDisconnect =>
        .error "receiving on a closed channel"

/-- `Page::reflow` (page.rs:328-386).  `newPort` stands for the receive
end of the freshly allocated completion channel (its state records what
the worker will eventually do with it). -/
def reflow (p : PageState) (goal : ReflowGoal) (query_type : ReflowQueryType)
    (newPort : PortState) : Except String StepResult :=
  match p.frame with
  | none => .ok ⟨p, [], false⟩
  | some frame =>
    match frame.documentElement with
    | none => .ok ⟨p, [], false⟩
    | some _root =>
      let p1 := { p with avoided_reflows := 0 }
      match join_layout p1 with
      | .error e => .error e
      | .ok j =>
        let p2 := { j.page with
          layout_join_port := some newPort,
          last_reflow_id := j.page.last_reflow_id + 1,
          damaged := false }
        .ok ⟨p2, [⟨goal, p2.last_reflow_id, query_type⟩], j.blocked⟩

/-- `Page::flush_layout` (page.rs:170-189).  Decides the reflow goal and
whether to force a reflow; the forcing path unwraps the frame (a panic,
modelled as `.error`, when the frame is absent) before calling
`reflow`. -/
def flush_layout (p : PageState) (query : ReflowQueryType)
    (newPort : PortState) : Except String StepResult :=
  let gf : ReflowGoal × Bool :=
    if p.damaged then (.ReflowForDisplay, true)
    else
      match query with
      | .ContentBoxQuery _ => (.ReflowForScriptQuery, true)
      | .ContentBoxesQuery _ => (.ReflowForScriptQuery, true)
      | .NoQuery => (.ReflowForDisplay, false)
  if gf.2 then
    match p.frame with
    | none => .error "called Option::unwrap on a None value"
    | some _ => reflow p gf.1 query newPort
  else
    .ok ⟨{ p with avoided_reflows := p.avoided_reflows + 1 }, [], false⟩

/-! ## Synchronous queries (`layout`, `hit_test`, `get_nodes_under_mouse`) -/

/-- `Page::layout` (page.rs:191-196): flush with `NoQuery`, then join;
returns the updated page state (the RPC handle itself carries no
state). -/
def layout (p : PageState) (newPort : PortState) : Except String PageState :=
  match flush_layout p .NoQuery newPort with
  | .error e => .error e
  | .ok s =>
    match join_layout s.page with
    | .error e => .error e
    | .ok j => .ok j.page

/-- `Page::hit_test` (page.rs:398-417).  The frame is unwrapped (a panic
when absent); an absent document root element returns `none` before any
layout synchronization or RPC; otherwise `layout()` runs and the
blocking RPC's reply (`rpc`, an external input) is mapped: `Ok` to
`some`, `Err(())` to `none`.  The final `Bool` records whether the RPC
was issued. -/
def hit_test (p : PageState) (newPort : PortState)
    (rpc : Except Unit Nat) : Except String (PageState × Option Nat × Bool) :=
  match p.frame with
  | none => .error "called Option::unwrap on a None value"
  | some frame =>
    match frame.documentElement with
    | none => .ok (p, none, false)
    | some _root =>
      match layout p newPort with
      | .error e => .error e
      | .ok p' =>
        match rpc with
        | .ok node_address => .ok (p', some node_address, true)
        | .error () => .ok (p', none, true)

/-- `Page::get_nodes_under_mouse` (page.rs:419-437): identical shape to
`hit_test` with a list-of-addresses reply. -/
def get_nodes_under_mouse (p : PageState) (newPort : PortState)
    (rpc : Except Unit (List Nat)) :
    Except String (PageState × Option (List Nat) × Bool) :=
  match p.frame with
  | none => .error "called Option::unwrap on a None value"
  | some frame =>
    match frame.documentElement with
    | none => .ok (p, none, false)
    | some _root =>
      match layout p newPort with
      | .error e => .error e
      | .ok p' =>
        match rpc with
        | .ok node_addresses => .ok (p', some node_addresses, true)
        | .error () => .ok (p', none, true)

/-! ## The Page tree (`remove`, `PageIterator`) -/

/-- The Page tree, reduced to what `remove`, `find` and iteration read: a
pipeline id and the ordered child vector. -/
inductive PTree where
  | node (id : Nat) (children : List PTree)
deriving Repr

/-- A Page's own pipeline id. -/
def PTree.rootId : PTree → Nat
  | .node i _ => i

/-- A Page's stored children, in order. -/
def PTree.children : PTree → List PTree
  | .node _ cs => cs

/-- The first phase of `Page::remove` (page.rs:214-225): scan the
immediate children in order for the first one whose id matches, and if
found detach it (`Vec::remove(idx)`), returning it with the remaining
siblings. -/
def findRemove (id : Nat) : List PTree → Option (PTree × List PTree)
  | [] => none
  | c :: rest =>
    if c.rootId = id then some (c, rest)
    else
      match findRemove id rest with
      | some (r, rest') => some (r, c :: rest')
      | none => none

mutual

/-- `Page::remove` (page.rs:213-238): check all immediate children
first; only if none matches, recurse into each child in order and return
the first hit.  Returns the tree after removal together with the
detached subtree, if any. -/
def PTree.remove : PTree → Nat → PTree × Option PTree
  | .node i cs, id =>
    match findRemove id cs with
    | some (r, cs') => (.node i cs', some r)
    | none =>
      let (cs', r) := removeFromList cs id
      (.node i cs', r)

/-- The recursion of `Page::remove` over the child list: try each child
in order, stopping at the first child whose subtree yields a hit. -/
def removeFromList : List PTree → Nat → List PTree × Option PTree
  | [], _ => ([], none)
  | c :: rest, id =>
    match c.remove id with
    | (c', some r) => (c' :: rest, some r)
    | (c', none) =>
      let (rest', r) := removeFromList rest id
      (c' :: rest', r)

end

mutual

/-- All pipeline ids in a tree (root first, then subtrees in order). -/
def PTree.allIds : PTree → List Nat
  | .node i cs => i :: allIdsList cs

/-- All pipeline ids of a forest. -/
def allIdsList : List PTree → List Nat
  | [] => []
  | c :: rest => c.allIds ++ allIdsList rest

end

/-- `PageIterator::next`'s stack update (page.rs:241-253): the popped
node's children are pushed in stored order, so the last-stored child
ends on top.  The stack's head is its top. -/
def pushChildren : List PTree → List PTree → List PTree
  | [], stack => stack
  | c :: cs, stack => pushChildren cs (c :: stack)

/-- Total number of nodes in a forest (termination measure for the
iterator drain). -/
def forestSize : List PTree → Nat
  | [] => 0
  | .node _ cs :: rest => 1 + forestSize cs + forestSize rest

theorem forestSize_pushChildren (cs stack : List PTree) :
    forestSize (pushChildren cs stack) = forestSize cs + forestSize stack := by
  induction cs generalizing stack with
  | nil => simp [pushChildren, forestSize]
  | cons c rest ih =>
    cases c with
    | node i ccs =>
      simp [pushChildren, ih, forestSize]
      omega

theorem forestSize_cons (t : PTree) (rest : List PTree) :
    forestSize (t :: rest) = 1 + forestSize t.children + forestSize rest := by
  cases t with
  | node i cs => simp [forestSize, PTree.children]

/-- Running `PageIterator::next` to exhaustion from a given stack: each
step pops the top, pushes its children in stored order, and yields the
popped Page. -/
def drainStack (stack : List PTree) : List PTree :=
  match stack with
  | [] => []
  | top :: rest => top :: drainStack (pushChildren top.children rest)
termination_by forestSize stack
decreasing_by
  simp [forestSize_pushChildren, forestSize_cons]

/-- `IterablePage::iter` (page.rs:113-117): the stack is seeded with the
root; the resulting sequence of yielded Pages. -/
def PTree.iterate (t : PTree) : List PTree := drainStack [t]

/-! ## Font context (`font_context.rs`) -/

/-- `FontTemplateDescriptor::new(weight, italic)`. -/
structure FontTemplateDescriptor where
  weight : Nat
  italic : Bool
deriving Repr, DecidableEq

/-- `style::computed_values::font_style::T` (only the `italic`
comparison is observable here). -/
inductive FontStyleValue where
  | normal
  | italic
  | oblique
deriving Repr, DecidableEq

/-- `style::computed_values::font_variant::T`. -/
inductive FontVariant where
  | normal
  | small_caps
deriving Repr, DecidableEq

/-- `SpecifiedFontStyle`, reduced to the fields
`get_layout_font_group_for_style` reads.  Font sizes (`Au`) are modelled
as `Nat`; a font template (`Arc<FontTemplateData>`) as an opaque `Nat`
identity. -/
structure SpecifiedFontStyle where
  font_family : List String
  font_weight : Nat
  font_style : FontStyleValue
  font_size : Nat
  font_variant : FontVariant
deriving Repr, DecidableEq

/-- A layout `Font`, reduced to the fields the cache lookups compare and
the construction writes; `handle` is the platform font handle produced
by `new_from_template`, as an opaque identity. -/
structure Font where
  handle : Nat
  descriptor : FontTemplateDescriptor
  requested_pt_size : Nat
  actual_pt_size : Nat
  variant : FontVariant
deriving Repr, DecidableEq

/-- `FontContext::create_layout_font` (font_context.rs:98-124).
`scaleBy` abstracts `Au::scale_by(SMALL_CAPS_SCALE_FACTOR)` (a
floating-point scaling irrelevant to the properties proved here);
`newFromTemplate` abstracts the platform call
`FontHandleMethods::new_from_template(handle, template, Some(size))`,
whose result the source unwraps (font_context.rs:109-110): a `none`
reply is the unwrap panic, modelled as `.error`. -/
def create_layout_font (newFromTemplate : Nat → Nat → Option Nat)
    (scaleBy : Nat → Nat) (template : Nat)
    (descriptor : FontTemplateDescriptor) (pt_size : Nat)
    (variant : FontVariant) : Except String Font :=
  let actual_pt_size :=
    match variant with
    | .small_caps => scaleBy pt_size
    | .normal => pt_size
  match newFromTemplate template actual_pt_size with
  | none => .error "called Result::unwrap on an Err value"
  | some handle => .ok ⟨handle, descriptor, pt_size, actual_pt_size, variant⟩

/-- `LayoutFontCacheEntry`: family name plus the cached font, or `none`
recording that the family could not be resolved. -/
structure LayoutFontCacheEntry where
  family : String
  font : Option Font
deriving Repr, DecidableEq

/-- The `FontContext` fields `get_layout_font_group_for_style` touches.
A `FontGroup` is its font list. -/
structure FontContextState where
  layout_font_cache : List LayoutFontCacheEntry
  fallback_font_cache : List Font
  last_style : Option SpecifiedFontStyle
  last_fontgroup : Option (List Font)
deriving Repr, DecidableEq

/-- The inner loop over `layout_font_cache` (font_context.rs:149-168):
first entry with the requested family name and either no font (negative
entry, `some none`) or a font matching descriptor, size and variant
(`some (some f)`); entries with the right family but a mismatched font
do not stop the scan. -/
def scanLayoutCache (family : String) (desc : FontTemplateDescriptor)
    (size : Nat) (variant : FontVariant) :
    List LayoutFontCacheEntry → Option (Option Font)
  | [] => none
  | e :: rest =>
    if e.family = family then
      match e.font with
      | none => some none
      | some f =>
        if f.descriptor = desc ∧ f.requested_pt_size = size ∧ f.variant = variant then
          some (some f)
        else scanLayoutCache family desc size variant rest
    else scanLayoutCache family desc size variant rest

/-- The outer loop over the style's families (font_context.rs:146-195):
on a cache miss the font cache task is asked for a template
(`getTemplate`, an external input); success creates and caches a font
(propagating the creation panic, if any), failure caches a negative
entry. -/
def familiesLoop (newFromTemplate : Nat → Nat → Option Nat)
    (getTemplate : String → FontTemplateDescriptor → Option Nat)
    (scaleBy : Nat → Nat) (desc : FontTemplateDescriptor) (size : Nat)
    (variant : FontVariant) :
    List String → List LayoutFontCacheEntry → List Font →
    Except String (List LayoutFontCacheEntry × List Font)
  | [], cache, fonts => .ok (cache, fonts)
  | family :: rest, cache, fonts =>
    match scanLayoutCache family desc size variant cache with
    | some none =>
        familiesLoop newFromTemplate getTemplate scaleBy desc size variant rest cache fonts
    | some (some f) =>
        familiesLoop newFromTemplate getTemplate scaleBy desc size variant rest cache
          (fonts ++ [f])
    | none =>
      match getTemplate family desc with
      | some template =>
        match create_layout_font newFromTemplate scaleBy template desc size variant with
        | .error e => .error e
        | .ok layout_font =>
          familiesLoop newFromTemplate getTemplate scaleBy desc size variant rest
            (cache ++ [⟨family, some layout_font⟩]) (fonts ++ [layout_font])
      | none =>
        familiesLoop newFromTemplate getTemplate scaleBy desc size variant rest
          (cache ++ [⟨family, none⟩]) fonts

/-- The scan over `fallback_font_cache` (font_context.rs:200-210). -/
def scanFallbackCache (desc : FontTemplateDescriptor) (size : Nat)
    (variant : FontVariant) : List Font → Option Font
  | [] => none
  | f :: rest =>
    if f.descriptor = desc ∧ f.requested_pt_size = size ∧ f.variant = variant then
      some f
    else scanFallbackCache desc size variant rest

/-- `FontContext::get_layout_font_group_for_style`
(font_context.rs:129-230).  `ptrEqLast` is the outcome of
`arc_ptr_eq(&style, last_style)` (pointer identity, an external input);
`getTemplate` / `lastResortTemplate` abstract the font cache task, where
`get_last_resort_font_template` always returns a template, and
`newFromTemplate` the platform font backend as in
`create_layout_font`.  The `.error` cases model the `unwrap` of
`last_fontgroup` on the pointer-equal fast path and the propagated
font-creation unwrap. -/
def get_layout_font_group_for_style (fc : FontContextState)
    (style : SpecifiedFontStyle) (ptrEqLast : Bool)
    (newFromTemplate : Nat → Nat → Option Nat)
    (getTemplate : String → FontTemplateDescriptor → Option Nat)
    (lastResortTemplate : FontTemplateDescriptor → Nat)
    (scaleBy : Nat → Nat) :
    Except String (FontContextState × List Font) :=
  let mtch : Bool :=
    match fc.last_style with
    | some _ => ptrEqLast
    | none => false
  if mtch then
    match fc.last_fontgroup with
    | some g => .ok (fc, g)
    | none => .error "called Option::unwrap on a None value"
  else
    let desc : FontTemplateDescriptor :=
      ⟨style.font_weight, decide (style.font_style = .italic)⟩
    match familiesLoop newFromTemplate getTemplate scaleBy desc style.font_size
        style.font_variant style.font_family fc.layout_font_cache [] with
    | .error e => .error e
    | .ok cf =>
      if cf.2.length = 0 then
        match scanFallbackCache desc style.font_size style.font_variant
            fc.fallback_font_cache with
        | some f =>
            .ok (⟨cf.1, fc.fallback_font_cache, some style, some (cf.2 ++ [f])⟩,
                 cf.2 ++ [f])
        | none =>
          let template := lastResortTemplate desc
          match create_layout_font newFromTemplate scaleBy template desc
              style.font_size style.font_variant with
          | .error e => .error e
          | .ok layout_font =>
            .ok (⟨cf.1, fc.fallback_font_cache ++ [layout_font], some style,
                  some (cf.2 ++ [layout_font])⟩,
                 cf.2 ++ [layout_font])
      else
        .ok (⟨cf.1, fc.fallback_font_cache, some style, some cf.2⟩, cf.2)

/-! ## Helper predicates -/

/-- Geometry queries: content-box / content-boxes. -/
def isGeometryQuery : ReflowQueryType → Bool
  | .ContentBoxQuery _ => true
  | .ContentBoxesQuery _ => true
  | .NoQuery => false

/-- Ports on which `join_layout` returns normally (for an absent port or
a worker that does send its completion value). -/
def joinable : Option PortState → Bool
  | none => true
  | some .ready => true
  | some .willSend => true
  | some .disconnected => false
  | some .willDisconnect => false

/-- The page has a frame whose document has a root element. -/
def hasDocRoot (p : PageState) : Bool :=
  match p.frame with
  | some f => f.documentElement.isSome
  | none => false

/-! ## Theorems -/

theorem hasDocRoot_elim (p : PageState) (h : hasDocRoot p = true) :
    ∃ f e, p.frame = some f ∧ f.documentElement = some e := by
  obtain ⟨fr, port, dmg, lid, avd⟩ := p
  cases fr with
  | none => simp [hasDocRoot] at h
  | some f =>
    cases hde : f.documentElement with
    | none => simp [hasDocRoot, hde] at h
    | some e => exact ⟨f, e, rfl, hde⟩

/-- On the happy path (frame with a document root, joinable outstanding
port), `reflow` dispatches exactly one message and leaves the page
undamaged with a fresh join port and an incremented reflow id. -/
theorem reflow_dispatches (p : PageState) (goal : ReflowGoal)
    (q : ReflowQueryType) (np : PortState) (f : Frame) (e : Nat)
    (hf : p.frame = some f) (hde : f.documentElement = some e)
    (hjoin : joinable p.layout_join_port = true) :
    ∃ b, reflow p goal q np =
      .ok ⟨⟨p.frame, some np, false, p.last_reflow_id + 1, 0⟩,
           [⟨goal, p.last_reflow_id + 1, q⟩], b⟩ := by
  obtain ⟨fr, port, dmg, lid, avd⟩ := p
  simp only [PageState.frame] at hf
  subst hf
  cases port with
  | none => exact ⟨false, by simp [reflow, join_layout, hde]⟩
  | some ps =>
    cases ps with
    | ready => exact ⟨false, by simp [reflow, join_layout, hde]⟩
    | willSend => exact ⟨true, by simp [reflow, join_layout, hde]⟩
    | disconnected => simp [joinable] at hjoin
    | willDisconnect => simp [joinable] at hjoin

theorem flush_layout_eq_reflow_of_damaged (p : PageState) (q : ReflowQueryType)
    (np : PortState) (f : Frame) (hdmg : p.damaged = true)
    (hf : p.frame = some f) :
    flush_layout p q np = reflow p .ReflowForDisplay q np := by
  simp [flush_layout, hdmg, hf]

theorem flush_layout_eq_reflow_of_query (p : PageState) (q : ReflowQueryType)
    (np : PortState) (f : Frame) (hdmg : p.damaged = false)
    (hq : isGeometryQuery q = true) (hf : p.frame = some f) :
    flush_layout p q np = reflow p .ReflowForScriptQuery q np := by
  cases q with
  | ContentBoxQuery a => simp [flush_layout, hdmg, hf]
  | ContentBoxesQuery a => simp [flush_layout, hdmg, hf]
  | NoQuery => simp [isGeometryQuery] at hq

/-- C1: `flush_layout` implements the reflow-avoidance decision table:
with `damaged` set it dispatches one reflow with goal `ForDisplay` for
any query type; undamaged with a content-box(es) query it dispatches one
reflow with goal `ForScriptQuery`; undamaged with `NoQuery` it
dispatches nothing and increments `avoided_reflows` by exactly one.
(The dispatching rows are stated under the code's path conditions: a
frame with a document root is present and the outstanding join, if any,
completes.) -/
theorem flush_layout_policy (p : PageState) (q : ReflowQueryType) (np : PortState) :
    (p.damaged = true → hasDocRoot p = true → joinable p.layout_join_port = true →
      ∃ s, flush_layout p q np = .ok s ∧
        s.sent = [⟨.ReflowForDisplay, p.last_reflow_id + 1, q⟩])
  ∧ (p.damaged = false → isGeometryQuery q = true →
      hasDocRoot p = true → joinable p.layout_join_port = true →
      ∃ s, flush_layout p q np = .ok s ∧
        s.sent = [⟨.ReflowForScriptQuery, p.last_reflow_id + 1, q⟩])
  ∧ (p.damaged = false → q = .NoQuery →
      flush_layout p q np =
        .ok ⟨{ p with avoided_reflows := p.avoided_reflows + 1 }, [], false⟩) := by
  refine ⟨?_, ?_, ?_⟩
  · intro hdmg hroot hjoin
    obtain ⟨f, e, hf, hde⟩ := hasDocRoot_elim p hroot
    obtain ⟨b, hb⟩ := reflow_dispatches p .ReflowForDisplay q np f e hf hde hjoin
    rw [flush_layout_eq_reflow_of_damaged p q np f hdmg hf]
    exact ⟨_, hb, rfl⟩
  · intro hdmg hq hroot hjoin
    obtain ⟨f, e, hf, hde⟩ := hasDocRoot_elim p hroot
    obtain ⟨b, hb⟩ := reflow_dispatches p .ReflowForScriptQuery q np f e hf hde hjoin
    rw [flush_layout_eq_reflow_of_query p q np f hdmg hq hf]
    exact ⟨_, hb, rfl⟩
  · intro hdmg hq
    subst hq
    simp [flush_layout, hdmg]

/-- Closed instance of `flush_layout_policy`: on a damaged page with a
loaded document and no outstanding reflow, a `NoQuery` flush dispatches
one `ForDisplay` reflow. -/
theorem flush_layout_policy_witness :
    ∃ s, flush_layout ⟨some ⟨some 7⟩, none, true, 4, 2⟩ .NoQuery .ready = .ok s ∧
      s.sent = [⟨.ReflowForDisplay, 5, .NoQuery⟩] :=
  (flush_layout_policy ⟨some ⟨some 7⟩, none, true, 4, 2⟩ .NoQuery .ready).1
    rfl rfl rfl

/-- C2: when `reflow` returns normally on a page with a loaded document,
`damaged` is false, `last_reflow_id` has been incremented, exactly one
reflow request was dispatched (carrying the new id) and the fresh join
port is installed; and if the outstanding prior reflow cannot be joined
(its worker disconnected), `reflow` aborts instead of dispatching — the
join barrier precedes every dispatch. -/
theorem reflow_postcondition (p : PageState) (goal : ReflowGoal)
    (q : ReflowQueryType) (np : PortState) (f : Frame) (e : Nat)
    (hf : p.frame = some f) (hde : f.documentElement = some e) :
    (joinable p.layout_join_port = true →
      ∃ b, reflow p goal q np =
        .ok ⟨⟨p.frame, some np, false, p.last_reflow_id + 1, 0⟩,
             [⟨goal, p.last_reflow_id + 1, q⟩], b⟩)
  ∧ (joinable p.layout_join_port = false →
      ∃ err, reflow p goal q np = .error err) := by
  constructor
  · intro hjoin
    exact reflow_dispatches p goal q np f e hf hde hjoin
  · intro hjoin
    obtain ⟨fr, port, dmg, lid, avd⟩ := p
    simp only [PageState.frame] at hf
    subst hf
    cases port with
    | none => simp [joinable] at hjoin
    | some ps =>
      cases ps with
      | ready => simp [joinable] at hjoin
      | willSend => simp [joinable] at hjoin
      | disconnected =>
        exact ⟨"Layout task failed while script was waiting for a result.",
          by simp [reflow, join_layout, hde]⟩
      | willDisconnect =>
        exact ⟨"receiving on a closed channel",
          by simp [reflow, join_layout, hde]⟩

/-- Closed instance of `reflow_postcondition`: a page with an already
completed outstanding reflow dispatches exactly one new request. -/
theorem reflow_postcondition_witness :
    ∃ b, reflow ⟨some ⟨some 3⟩, some .ready, true, 9, 5⟩ .ReflowForDisplay
        .NoQuery .willSend =
      .ok ⟨⟨some ⟨some 3⟩, some .willSend, false, 10, 0⟩,
           [⟨.ReflowForDisplay, 10, .NoQuery⟩], b⟩ :=
  (reflow_postcondition ⟨some ⟨some 3⟩, some .ready, true, 9, 5⟩
    .ReflowForDisplay .NoQuery .willSend ⟨some 3⟩ 3 rfl rfl).1 rfl

/-- C3: `join_layout` blocks only when an outstanding handle is present,
clears the handle (the state after any normal return has no handle), and
a second consecutive call finds no handle and returns immediately
without blocking. -/
theorem join_layout_idempotent (p : PageState) :
    (p.layout_join_port = none → join_layout p = .ok ⟨p, [], false⟩)
  ∧ (∀ s, join_layout p = .ok s →
      s.page.layout_join_port = none
      ∧ join_layout s.page = .ok ⟨s.page, [], false⟩
      ∧ (s.blocked = true → p.layout_join_port ≠ none)) := by
  obtain ⟨fr, port, dmg, lid, avd⟩ := p
  constructor
  · intro h
    simp only [PageState.layout_join_port] at h
    subst h
    simp [join_layout]
  · intro s hs
    cases port with
    | none =>
      simp [join_layout] at hs
      subst hs
      simp [join_layout]
    | some ps =>
      cases ps with
      | ready =>
        simp [join_layout] at hs
        subst hs
        simp [join_layout]
      | willSend =>
        simp [join_layout] at hs
        subst hs
        simp [join_layout]
      | disconnected => simp [join_layout] at hs
      | willDisconnect => simp [join_layout] at hs

/-- Closed instance of `join_layout_idempotent`: with no outstanding
handle the call returns at once, and a call that consumed a pending
handle leaves nothing for a second call to wait on. -/
theorem join_layout_idempotent_witness :
    (join_layout ⟨none, none, false, 2, 1⟩ = .ok ⟨⟨none, none, false, 2, 1⟩, [], false⟩)
  ∧ (join_layout ⟨none, none, false, 3, 0⟩ =
      .ok ⟨⟨none, none, false, 3, 0⟩, [], false⟩) :=
  ⟨(join_layout_idempotent ⟨none, none, false, 2, 1⟩).1 rfl,
   ((join_layout_idempotent ⟨none, some .willSend, false, 3, 0⟩).2
      ⟨⟨none, none, false, 3, 0⟩, [], true⟩ rfl).2.1⟩

/-- C4: if the completion channel is disconnected without a value — be
it found disconnected at the non-blocking probe or closed while the call
is blocked — `join_layout` fails fatally instead of returning
normally. -/
theorem join_layout_disconnect_fatal (p : PageState)
    (h : p.layout_join_port = some .disconnected ∨
         p.layout_join_port = some .willDisconnect) :
    ∃ err, join_layout p = .error err := by
  obtain ⟨fr, port, dmg, lid, avd⟩ := p
  simp only [PageState.layout_join_port] at h
  rcases h with h | h <;> subst h
  · exact ⟨"Layout task failed while script was waiting for a result.",
      by simp [join_layout]⟩
  · exact ⟨"receiving on a closed channel", by simp [join_layout]⟩

/-- Closed instance of `join_layout_disconnect_fatal`. -/
theorem join_layout_disconnect_fatal_witness :
    ∃ err, join_layout ⟨none, some .disconnected, false, 0, 0⟩ = .error err :=
  join_layout_disconnect_fatal ⟨none, some .disconnected, false, 0, 0⟩ (.inl rfl)

/-- C5: a direct `reflow` on a page with no frame, or whose document has
no root element, is a silent no-op: it returns the page unchanged (all
of `damaged`, `last_reflow_id`, `layout_join_port`, `avoided_reflows`
untouched), dispatches nothing, does not block and does not fail. -/
theorem reflow_noop_without_document (p : PageState) (goal : ReflowGoal)
    (q : ReflowQueryType) (np : PortState) :
    (p.frame = none → reflow p goal q np = .ok ⟨p, [], false⟩)
  ∧ (∀ f, p.frame = some f → f.documentElement = none →
      reflow p goal q np = .ok ⟨p, [], false⟩) := by
  constructor
  · intro hf
    simp [reflow, hf]
  · intro f hf hde
    simp [reflow, hf, hde]

/-- Closed instance of `reflow_noop_without_document` (both cases). -/
theorem reflow_noop_without_document_witness :
    (reflow ⟨none, some .ready, true, 1, 2⟩ .ReflowForDisplay .NoQuery .willSend =
      .ok ⟨⟨none, some .ready, true, 1, 2⟩, [], false⟩)
  ∧ (reflow ⟨some ⟨none⟩, some .ready, true, 1, 2⟩ .ReflowForDisplay .NoQuery .willSend =
      .ok ⟨⟨some ⟨none⟩, some .ready, true, 1, 2⟩, [], false⟩) :=
  ⟨(reflow_noop_without_document ⟨none, some .ready, true, 1, 2⟩
      .ReflowForDisplay .NoQuery .willSend).1 rfl,
   (reflow_noop_without_document ⟨some ⟨none⟩, some .ready, true, 1, 2⟩
      .ReflowForDisplay .NoQuery .willSend).2 ⟨none⟩ rfl rfl⟩

/-- C6: on a page with no frame, `flush_layout` panics (unwrap of the
absent frame) whenever its policy forces a reflow — damaged, or an
undamaged content-box(es) query — whereas a direct `reflow` call on the
same page silently no-ops. -/
theorem flush_layout_no_frame_panics (p : PageState) (q : ReflowQueryType)
    (np : PortState) (hf : p.frame = none)
    (hforce : p.damaged = true ∨ isGeometryQuery q = true) :
    flush_layout p q np = .error "called Option::unwrap on a None value"
  ∧ ∀ goal, reflow p goal q np = .ok ⟨p, [], false⟩ := by
  constructor
  · rcases hforce with hdmg | hq
    · simp [flush_layout, hdmg, hf]
    · cases hdmg : p.damaged with
      | true => simp [flush_layout, hdmg, hf]
      | false =>
        cases q with
        | ContentBoxQuery a => simp [flush_layout, hdmg, hf]
        | ContentBoxesQuery a => simp [flush_layout, hdmg, hf]
        | NoQuery => simp [isGeometryQuery] at hq
  · intro goal
    simp [reflow, hf]

/-- Closed instance of `flush_layout_no_frame_panics`: a damaged
frameless page panics on flush but no-ops on direct reflow. -/
theorem flush_layout_no_frame_panics_witness :
    flush_layout ⟨none, none, true, 0, 0⟩ .NoQuery .ready =
      .error "called Option::unwrap on a None value"
  ∧ ∀ goal, reflow ⟨none, none, true, 0, 0⟩ goal .NoQuery .ready =
      .ok ⟨⟨none, none, true, 0, 0⟩, [], false⟩ :=
  flush_layout_no_frame_panics ⟨none, none, true, 0, 0⟩ .NoQuery .ready rfl (.inl rfl)

/-! ### Tree lemmas -/

theorem remove_node (i id : Nat) (cs : List PTree) :
    (PTree.node i cs).remove id =
      match findRemove id cs with
      | some (r, cs') => (.node i cs', some r)
      | none => (.node i (removeFromList cs id).1, (removeFromList cs id).2) := by
  rw [PTree.remove]

theorem removeFromList_cons (c : PTree) (rest : List PTree) (id : Nat) :
    removeFromList (c :: rest) id =
      match c.remove id with
      | (c', some r) => (c' :: rest, some r)
      | (c', none) => ((c' :: (removeFromList rest id).1), (removeFromList rest id).2) := by
  rw [removeFromList]

theorem findRemove_some_of_mem (id : Nat) (cs : List PTree)
    (h : ∃ c ∈ cs, c.rootId = id) :
    ∃ r cs', findRemove id cs = some (r, cs') ∧ r ∈ cs ∧ r.rootId = id ∧
      cs'.length + 1 = cs.length := by
  induction cs with
  | nil => simp at h
  | cons c rest ih =>
    by_cases hc : c.rootId = id
    · exact ⟨c, rest, by simp [findRemove, hc], by simp, hc, by simp⟩
    · obtain ⟨d, hd, hdid⟩ := h
      rcases List.mem_cons.1 hd with rfl | hdrest
      · exact absurd hdid hc
      · obtain ⟨r, rest', hfr, hrmem, hrid, hlen⟩ := ih ⟨d, hdrest, hdid⟩
        refine ⟨r, c :: rest', ?_, by simp [hrmem], hrid, by simp [← hlen]⟩
        simp [findRemove, hc, hfr]

theorem findRemove_eq_none (id : Nat) (cs : List PTree)
    (h : id ∉ allIdsList cs) : findRemove id cs = none := by
  induction cs with
  | nil => simp [findRemove]
  | cons c rest ih =>
    cases c with
    | node j ccs =>
      simp [allIdsList, PTree.allIds] at h
      obtain ⟨hj, _hccs, hrest⟩ := h
      simp [findRemove, PTree.rootId, ih hrest]
      omega

theorem removeFromList_not_mem (cs : List PTree) (id : Nat)
    (h : id ∉ allIdsList cs) : removeFromList cs id = (cs, none) := by
  match cs with
  | [] => simp [removeFromList]
  | PTree.node j ccs :: rest =>
    simp [allIdsList, PTree.allIds] at h
    have h1 : id ∉ allIdsList ccs := h.2.1
    have h2 : id ∉ allIdsList rest := h.2.2
    have hr1 := removeFromList_not_mem ccs id h1
    have hr2 := removeFromList_not_mem rest id h2
    have hrm : (PTree.node j ccs).remove id = (PTree.node j ccs, none) := by
      rw [remove_node, findRemove_eq_none id ccs h1, hr1]
    rw [removeFromList_cons, hrm, hr2]
termination_by forestSize cs
decreasing_by
  all_goals simp [forestSize]
  all_goals omega

theorem remove_not_mem (t : PTree) (id : Nat) (h : id ∉ t.allIds) :
    t.remove id = (t, none) := by
  cases t with
  | node i cs =>
    simp [PTree.allIds] at h
    have hcs : id ∉ allIdsList cs := h.2
    rw [remove_node, findRemove_eq_none id cs hcs, removeFromList_not_mem cs id hcs]

/-- C7: `remove(id)` never removes the node it is called on (the root
survives with its id even when it matches); when `id` names an immediate
child the first matching immediate child is detached and returned —
immediate children are checked before any recursion — and the child list
shrinks by exactly one; when `id` is absent from the whole subtree the
result is `none` and the tree is unchanged. -/
theorem remove_spec (i id : Nat) (cs : List PTree) :
    ((PTree.node i cs).remove id).1.rootId = i
  ∧ ((∃ c ∈ cs, c.rootId = id) →
      ∃ r cs', (PTree.node i cs).remove id = (.node i cs', some r) ∧
        r ∈ cs ∧ r.rootId = id ∧ cs'.length + 1 = cs.length)
  ∧ (id ∉ (PTree.node i cs).allIds →
      (PTree.node i cs).remove id = (.node i cs, none)) := by
  refine ⟨?_, ?_, ?_⟩
  · rw [remove_node]
    cases hfr : findRemove id cs with
    | none => simp [PTree.rootId]
    | some rc => cases rc with | mk r cs' => simp [PTree.rootId]
  · intro h
    obtain ⟨r, cs', hfr, hrmem, hrid, hlen⟩ := findRemove_some_of_mem id cs h
    exact ⟨r, cs', by rw [remove_node, hfr], hrmem, hrid, hlen⟩
  · intro h
    exact remove_not_mem (PTree.node i cs) id h

/-- Closed instance of `remove_spec`: on a two-level tree, removing the
root's own id touches nothing, removing a leaf detaches it, and an
absent id is a no-op. -/
theorem remove_spec_witness :
    ((PTree.node 0 [PTree.node 1 []]).remove 0).1.rootId = 0
  ∧ (∃ r cs', (PTree.node 0 [PTree.node 1 []]).remove 1 = (.node 0 cs', some r) ∧
      r ∈ [PTree.node 1 []] ∧ r.rootId = 1 ∧ cs'.length + 1 = 1)
  ∧ ((PTree.node 0 [PTree.node 1 []]).remove 5 =
      (.node 0 [PTree.node 1 []], none)) :=
  ⟨(remove_spec 0 0 [PTree.node 1 []]).1,
   (remove_spec 0 1 [PTree.node 1 []]).2.1 ⟨PTree.node 1 [], by simp, rfl⟩,
   (remove_spec 0 5 [PTree.node 1 []]).2.2 (by
      simp [PTree.allIds, allIdsList])⟩

theorem pushChildren_eq (cs s : List PTree) :
    pushChildren cs s = cs.reverse ++ s := by
  induction cs generalizing s with
  | nil => simp [pushChildren]
  | cons c rest ih => simp [pushChildren, ih]

theorem drainStack_cons (t : PTree) (rest : List PTree) :
    drainStack (t :: rest) = t :: drainStack (pushChildren t.children rest) := by
  rw [drainStack]

theorem forestSize_append (l₁ l₂ : List PTree) :
    forestSize (l₁ ++ l₂) = forestSize l₁ + forestSize l₂ := by
  induction l₁ with
  | nil => simp [forestSize]
  | cons c rest ih =>
    cases c with
    | node i cs =>
      simp [forestSize, ih]
      omega

theorem forestSize_reverse (l : List PTree) :
    forestSize l.reverse = forestSize l := by
  induction l with
  | nil => rfl
  | cons c rest ih =>
    cases c with
    | node i cs =>
      simp [List.reverse_cons, forestSize_append, forestSize, ih]
      omega

theorem drainStack_append (l rest : List PTree) :
    drainStack (l ++ rest) = drainStack l ++ drainStack rest := by
  match l with
  | [] => simp [drainStack]
  | PTree.node i cs :: l' =>
    rw [List.cons_append, drainStack_cons, drainStack_cons]
    simp only [PTree.children, pushChildren_eq]
    rw [← List.append_assoc, drainStack_append (cs.reverse ++ l') rest]
    simp
termination_by forestSize l
decreasing_by
  simp [forestSize, forestSize_append, forestSize_reverse]

theorem drainStack_eq_join (l : List PTree) :
    drainStack l = (l.map PTree.iterate).flatten := by
  induction l with
  | nil => simp [drainStack]
  | cons t rest ih =>
    have : t :: rest = [t] ++ rest := rfl
    rw [this, drainStack_append, ih]
    simp [PTree.iterate]

/-- C8: `iterate` yields the root first and then each child's whole
subtree in reverse of the stored child order (LIFO stack seeded with the
root, children pushed in stored order); in particular for a root `R`
with children `[A, B]` where `A` is a leaf and `B` has one child `C`,
the order is `R, B, C, A`. -/
theorem iterate_order :
    (∀ (i : Nat) (cs : List PTree),
      (PTree.node i cs).iterate =
        PTree.node i cs :: (cs.reverse.map PTree.iterate).flatten)
  ∧ (PTree.node 0 [PTree.node 1 [], PTree.node 2 [PTree.node 3 []]]).iterate =
      [PTree.node 0 [PTree.node 1 [], PTree.node 2 [PTree.node 3 []]],
       PTree.node 2 [PTree.node 3 []], PTree.node 3 [], PTree.node 1 []] := by
  have hgen : ∀ (i : Nat) (cs : List PTree),
      (PTree.node i cs).iterate =
        PTree.node i cs :: (cs.reverse.map PTree.iterate).flatten := by
    intro i cs
    rw [PTree.iterate, drainStack_cons]
    simp only [PTree.children, pushChildren_eq, List.append_nil]
    rw [drainStack_eq_join]
  refine ⟨hgen, ?_⟩
  simp [hgen]

/-- C9: `hit_test` and `get_nodes_under_mouse` surface failure
non-fatally: with no document root element they return `none` without
reaching the RPC (and without touching the page state), and when the
blocking RPC replies with a failure they return `none` to the caller
instead of propagating an error. -/
theorem hit_test_mouse_over_nonfatal (p : PageState) (np : PortState)
    (f : Frame) (hf : p.frame = some f) :
    (f.documentElement = none →
      ∀ (rpcH : Except Unit Nat) (rpcM : Except Unit (List Nat)),
        hit_test p np rpcH = .ok (p, none, false) ∧
        get_nodes_under_mouse p np rpcM = .ok (p, none, false))
  ∧ (∀ e, f.documentElement = some e → ∀ p', layout p np = .ok p' →
      hit_test p np (.error ()) = .ok (p', none, true) ∧
      get_nodes_under_mouse p np (.error ()) = .ok (p', none, true)) := by
  constructor
  · intro hde rpcH rpcM
    exact ⟨by simp [hit_test, hf, hde], by simp [get_nodes_under_mouse, hf, hde]⟩
  · intro e hde p' hl
    exact ⟨by simp [hit_test, hf, hde, hl],
           by simp [get_nodes_under_mouse, hf, hde, hl]⟩

/-- Closed instance of `hit_test_mouse_over_nonfatal`: a failing RPC on
a loaded, undamaged page yields `none` from both queries. -/
theorem hit_test_mouse_over_nonfatal_witness :
    hit_test ⟨some ⟨some 4⟩, none, false, 0, 0⟩ .ready (.error ()) =
      .ok (⟨some ⟨some 4⟩, none, false, 0, 1⟩, none, true)
  ∧ get_nodes_under_mouse ⟨some ⟨some 4⟩, none, false, 0, 0⟩ .ready (.error ()) =
      .ok (⟨some ⟨some 4⟩, none, false, 0, 1⟩, none, true) :=
  (hit_test_mouse_over_nonfatal ⟨some ⟨some 4⟩, none, false, 0, 0⟩ .ready
      ⟨some 4⟩ rfl).2 4 rfl ⟨some ⟨some 4⟩, none, false, 0, 1⟩ rfl

/-- Under a platform font backend that honours its contract
(`new_from_template` always yields a handle), `create_layout_font`
returns a font rather than hitting its unwrap. -/
theorem create_layout_font_ok (newFromTemplate : Nat → Nat → Option Nat)
    (scaleBy : Nat → Nat)
    (hnf : ∀ t s, (newFromTemplate t s).isSome = true)
    (template : Nat) (desc : FontTemplateDescriptor) (pt_size : Nat)
    (variant : FontVariant) :
    ∃ f, create_layout_font newFromTemplate scaleBy template desc pt_size
      variant = .ok f := by
  cases variant with
  | small_caps =>
    obtain ⟨h, hh⟩ := Option.isSome_iff_exists.mp (hnf template (scaleBy pt_size))
    exact ⟨⟨h, desc, pt_size, scaleBy pt_size, .small_caps⟩,
      by simp [create_layout_font, hh]⟩
  | normal =>
    obtain ⟨h, hh⟩ := Option.isSome_iff_exists.mp (hnf template pt_size)
    exact ⟨⟨h, desc, pt_size, pt_size, .normal⟩,
      by simp [create_layout_font, hh]⟩

/-- Under the same backend contract, the families loop never fails. -/
theorem familiesLoop_ok (newFromTemplate : Nat → Nat → Option Nat)
    (getTemplate : String → FontTemplateDescriptor → Option Nat)
    (scaleBy : Nat → Nat) (desc : FontTemplateDescriptor) (size : Nat)
    (variant : FontVariant)
    (hnf : ∀ t s, (newFromTemplate t s).isSome = true) :
    ∀ (fams : List String) (cache : List LayoutFontCacheEntry) (fonts : List Font),
      ∃ cf, familiesLoop newFromTemplate getTemplate scaleBy desc size variant
        fams cache fonts = .ok cf := by
  intro fams
  induction fams with
  | nil => exact fun cache fonts => ⟨(cache, fonts), rfl⟩
  | cons family rest ih =>
    intro cache fonts
    cases hsc : scanLayoutCache family desc size variant cache with
    | none =>
      cases hgt : getTemplate family desc with
      | some template =>
        obtain ⟨lf, hlf⟩ := create_layout_font_ok newFromTemplate scaleBy hnf
          template desc size variant
        obtain ⟨cf, hcf⟩ := ih (cache ++ [⟨family, some lf⟩]) (fonts ++ [lf])
        exact ⟨cf, by simp [familiesLoop, hsc, hgt, hlf, hcf]⟩
      | none =>
        obtain ⟨cf, hcf⟩ := ih (cache ++ [⟨family, none⟩]) fonts
        exact ⟨cf, by simp [familiesLoop, hsc, hgt, hcf]⟩
    | some of =>
      cases of with
      | none =>
        obtain ⟨cf, hcf⟩ := ih cache fonts
        exact ⟨cf, by simp [familiesLoop, hsc, hcf]⟩
      | some f =>
        obtain ⟨cf, hcf⟩ := ih cache (fonts ++ [f])
        exact ⟨cf, by simp [familiesLoop, hsc, hcf]⟩

/-- C10: provided the platform font backend honours its contract
(`new_from_template` yields a handle, so the source's unwrap at
font_context.rs:109-110 cannot fire) and the cache pairing invariant
holds (a cached `last_fontgroup` is nonempty and accompanies
`last_style`), `get_layout_font_group_for_style` never fails outright:
it returns a font group with at least one font — when no requested
family resolves, a font built from the platform's last-resort template
(or its cached equivalent) is added — and the invariant is
re-established for the returned state. -/
theorem get_layout_font_group_nonempty (fc : FontContextState)
    (style : SpecifiedFontStyle) (ptrEqLast : Bool)
    (newFromTemplate : Nat → Nat → Option Nat)
    (getTemplate : String → FontTemplateDescriptor → Option Nat)
    (lastResortTemplate : FontTemplateDescriptor → Nat) (scaleBy : Nat → Nat)
    (hnf : ∀ t s, (newFromTemplate t s).isSome = true)
    (hinv : ∀ g, fc.last_fontgroup = some g → g ≠ [])
    (hpair : fc.last_style.isSome = true → fc.last_fontgroup.isSome = true) :
    ∃ fc' g, get_layout_font_group_for_style fc style ptrEqLast newFromTemplate
        getTemplate lastResortTemplate scaleBy = .ok (fc', g) ∧ g ≠ [] ∧
      fc'.last_fontgroup = some g := by
  by_cases hm : (match fc.last_style with
    | some _ => ptrEqLast
    | none => false) = true
  · cases hls : fc.last_style with
    | none => rw [hls] at hm; simp at hm
    | some st =>
      have hsome : fc.last_fontgroup.isSome = true := hpair (by simp [hls])
      obtain ⟨g, hg⟩ := Option.isSome_iff_exists.mp hsome
      have heq : get_layout_font_group_for_style fc style ptrEqLast
          newFromTemplate getTemplate lastResortTemplate scaleBy = .ok (fc, g) := by
        simp only [get_layout_font_group_for_style, hm, if_true, hg]
      exact ⟨fc, g, heq, hinv g hg, hg⟩
  · have hm' : (match fc.last_style with
      | some _ => ptrEqLast
      | none => false) = false := by
      cases h : (match fc.last_style with
        | some _ => ptrEqLast
        | none => false) with
      | true => exact absurd h hm
      | false => rfl
    obtain ⟨⟨cache', fonts'⟩, hfl⟩ := familiesLoop_ok newFromTemplate getTemplate
      scaleBy ⟨style.font_weight, decide (style.font_style = .italic)⟩
      style.font_size style.font_variant hnf style.font_family
      fc.layout_font_cache []
    by_cases hz : fonts'.length = 0
    · cases hsf : scanFallbackCache
          ⟨style.font_weight, decide (style.font_style = .italic)⟩
          style.font_size style.font_variant fc.fallback_font_cache with
      | some fallback =>
        have heq : get_layout_font_group_for_style fc style ptrEqLast
            newFromTemplate getTemplate lastResortTemplate scaleBy = .ok
          (⟨cache', fc.fallback_font_cache, some style,
            some (fonts' ++ [fallback])⟩, fonts' ++ [fallback]) := by
          simp only [get_layout_font_group_for_style, hm', Bool.false_eq_true,
            if_false, hfl, hz, if_true, hsf]
        exact ⟨_, _, heq, by simp, rfl⟩
      | none =>
        obtain ⟨lf, hlf⟩ := create_layout_font_ok newFromTemplate scaleBy hnf
          (lastResortTemplate ⟨style.font_weight, decide (style.font_style = .italic)⟩)
          ⟨style.font_weight, decide (style.font_style = .italic)⟩
          style.font_size style.font_variant
        have heq : get_layout_font_group_for_style fc style ptrEqLast
            newFromTemplate getTemplate lastResortTemplate scaleBy = .ok
          (⟨cache', fc.fallback_font_cache ++ [lf], some style,
            some (fonts' ++ [lf])⟩, fonts' ++ [lf]) := by
          simp only [get_layout_font_group_for_style, hm', Bool.false_eq_true,
            if_false, hfl, hz, if_true, hsf, hlf]
        exact ⟨_, _, heq, by simp, rfl⟩
    · have heq : get_layout_font_group_for_style fc style ptrEqLast
          newFromTemplate getTemplate lastResortTemplate scaleBy = .ok
        (⟨cache', fc.fallback_font_cache, some style, some fonts'⟩, fonts') := by
        simp only [get_layout_font_group_for_style, hm', Bool.false_eq_true,
          if_false, hfl]
        simp [hz]
      refine ⟨_, _, heq, ?_, rfl⟩
      intro hnil
      exact hz (by rw [hnil]; rfl)

/-- Closed instance of `get_layout_font_group_nonempty`: an empty
context resolving an unknown family falls back to the last-resort
template and still returns one font. -/
theorem get_layout_font_group_nonempty_witness :
    ∃ fc' g, get_layout_font_group_for_style ⟨[], [], none, none⟩
        ⟨["serif"], 400, .normal, 12, .normal⟩ false
        (fun _ _ => some 1) (fun _ _ => none) (fun _ => 0) id = .ok (fc', g) ∧
      g ≠ [] ∧ fc'.last_fontgroup = some g :=
  get_layout_font_group_nonempty ⟨[], [], none, none⟩
    ⟨["serif"], 400, .normal, 12, .normal⟩ false
    (fun _ _ => some 1) (fun _ _ => none) (fun _ => 0) id
    (fun _ _ => rfl) (fun g hg => by simp at hg) (fun h => by simp at h)

end Servo
